import Mathlib

/-!
Verification of the Multi-Source Dimension Resolution Engine
(backend/app/services/dimensions/) against its design specification.

Shallow embedding conventions:
* Python `float` values are modelled as exact rationals (`ℚ`); every numeric
  operation the embedded code performs (multiplication by a unit factor,
  `max`, `min`, comparison) is exact on the inputs that occur here.
* Python `dict[str, float]` is modelled as an association list
  (`Dict := List (String × ℚ)`) queried through `dlookup`; `{**d1, **d2}`
  (later entries win) is `dictUnion d1 d2`.
* Python truthiness (`x or y`, `if val:`) is modelled explicitly
  (`pyOrStr`, `pyOrRat`, emptiness tests).
* Fallible code returns `Option`; code that raises returns `Except`.
-/

/-- Association-list model of a Python `dict[str, float]`. -/
abbrev Dict := List (String × ℚ)

/-- Dictionary lookup (`d[k]` / `d.get(k)`). -/
def dlookup : Dict → String → Option ℚ
  | [], _ => none
  | (k, v) :: rest, key => if k = key then some v else dlookup rest key

/-- `{**base, **upd}`: keys of `upd` win, remaining keys come from `base`. -/
def dictUnion (base upd : Dict) : Dict :=
  base.filter (fun p => (dlookup upd p.1).isNone) ++ upd

/-- `d[k] = v` on a Python dict: overwrite in place, else append. -/
def dictSet : Dict → String → ℚ → Dict
  | [], k, v => [(k, v)]
  | (k1, v1) :: rest, k, v =>
      if k1 = k then (k, v) :: rest else (k1, v1) :: dictSet rest k v

/-- `d.setdefault(k, v)`: insert only when the key is absent. -/
def dictSetdefault (d : Dict) (k : String) (v : ℚ) : Dict :=
  if (dlookup d k).isSome then d else d ++ [(k, v)]

/-- Python `a or b` on optional strings (`None` and `""` are falsy). -/
def pyOrStr (a b : Option String) : Option String :=
  match a with
  | none => b
  | some s => if s = "" then b else some s

/-- Python `o or d` on an optional float (`None` and `0.0` are falsy). -/
def pyOrRat (o : Option ℚ) (d : ℚ) : ℚ :=
  match o with
  | none => d
  | some x => if x = 0 then d else x

/-- Opaque model of the `raw` payload (kept for auditing, never interpreted). -/
inductive Raw where
  | null : Raw
  | str : String → Raw
  | pair : Raw → Raw → Raw
deriving DecidableEq

/-- `DimensionsResult` (types.py): normalized dimensions payload, all linear
dimensions in millimetres. -/
structure DimensionsResult where
  item_id : Option String := none
  name : Option String := none
  dims_mm : Dict := []
  source : String := ""
  source_url : Option String := none
  confidence : ℚ := 0
  evidence : List String := []
  raw : Raw := Raw.null
deriving DecidableEq

instance : Inhabited DimensionsResult := ⟨{}⟩

/-- `DimensionsResult.merge_missing` (types.py lines 27-41): fill missing dims
from another result; keep higher confidence and append evidence. -/
def merge_missing (self other : DimensionsResult) : DimensionsResult :=
  { item_id := pyOrStr self.item_id other.item_id
    name := pyOrStr self.name other.name
    dims_mm :=
      if other.confidence ≤ self.confidence
      then dictUnion other.dims_mm self.dims_mm
      else dictUnion self.dims_mm other.dims_mm
    source := if other.confidence ≤ self.confidence then self.source else other.source
    source_url := if other.confidence ≤ self.confidence then self.source_url else other.source_url
    confidence := max self.confidence other.confidence
    evidence := self.evidence ++ other.evidence
    raw := Raw.pair self.raw other.raw }

lemma dlookup_append (l1 l2 : Dict) (k : String) :
    dlookup (l1 ++ l2) k =
      match dlookup l1 k with
      | some v => some v
      | none => dlookup l2 k := by
  induction l1 with
  | nil => simp [dlookup]
  | cons p rest ih =>
      obtain ⟨k1, v1⟩ := p
      by_cases h : k1 = k <;> simp [dlookup, h, ih]

lemma dlookup_filter_absent (base upd : Dict) (k : String) :
    dlookup (base.filter (fun p => (dlookup upd p.1).isNone)) k =
      if dlookup upd k = none then dlookup base k else none := by
  induction base with
  | nil => simp [dlookup]
  | cons p rest ih =>
      obtain ⟨k1, v1⟩ := p
      cases hu : dlookup upd k1 with
      | some v =>
          simp only [List.filter_cons, hu, Option.isNone_some, Bool.false_eq_true, if_false]
          rw [ih]
          by_cases hk : k1 = k
          · subst hk; simp [hu]
          · simp [dlookup, hk]
      | none =>
          simp only [List.filter_cons, hu, Option.isNone_none, if_true]
          by_cases hk : k1 = k
          · subst hk; simp [dlookup, hu]
          · simp [dlookup, hk, ih]

lemma dlookup_dictUnion (base upd : Dict) (k : String) :
    dlookup (dictUnion base upd) k =
      match dlookup upd k with
      | some v => some v
      | none => dlookup base k := by
  unfold dictUnion
  rw [dlookup_append, dlookup_filter_absent]
  cases h : dlookup upd k with
  | some v => simp [h]
  | none => simp only [h, if_true]; cases hb : dlookup base k <;> simp

/-! ## Unit Normalizer (units.py) -/

/-- Modelled from the spec: the contents of `WIKIDATA_UNIT_TO_MM` in units.py
are missing from src/ (the file is truncated just before its closing brace);
per the spec it is the knowledge-base unit-URI table mapping length-unit URIs
to millimetre factors. The exact entries do not matter for the claims, which
are about `to_mm`'s lookup order. -/
def WIKIDATA_UNIT_TO_MM : Dict :=
  [("http://www.wikidata.org/entity/Q174789", 1),
   ("http://www.wikidata.org/entity/Q174728", 10),
   ("http://www.wikidata.org/entity/Q11573", 1000),
   ("http://www.wikidata.org/entity/Q218593", 127/5),
   ("http://www.wikidata.org/entity/Q3710", 1524/5)]

/-- `UNITCODE_TO_MM` (units.py): UCUM/UN-ECE codes used in
schema.org QuantitativeValue.unitCode. -/
def UNITCODE_TO_MM : Dict :=
  [("MMT", 1), ("CMT", 10), ("MTR", 1000), ("INH", 127/5), ("FOT", 1524/5),
   ("MM", 1), ("CM", 10), ("M", 1000), ("IN", 127/5), ("FT", 1524/5)]

/-- `SYMBOL_TO_MM` (units.py): human unit symbols and words, keyed lowercase. -/
def SYMBOL_TO_MM : Dict :=
  [("mm", 1), ("millimeter", 1), ("millimetre", 1),
   ("cm", 10), ("centimeter", 10), ("centimetre", 10),
   ("m", 1000), ("meter", 1000), ("metre", 1000),
   ("in", 127/5), ("inch", 127/5), ("inches", 127/5), ("″", 127/5), ("\"", 127/5),
   ("ft", 1524/5), ("foot", 1524/5), ("feet", 1524/5), ("′", 1524/5)]

/-- Python whitespace class (`str.strip` default / regex `\s`, ASCII range). -/
def pyIsSpace (c : Char) : Bool :=
  c == ' ' || c == '\t' || c == '\n' || c == '\r' || c == '\x0b' || c == '\x0c'

/-- Python `str.strip()`. -/
def pyStrip (s : String) : String :=
  String.mk (((s.toList.dropWhile pyIsSpace).reverse.dropWhile pyIsSpace).reverse)

/-- Python `str.lower()` (the unit identifiers in play are ASCII or caseless). -/
def pyLower (s : String) : String :=
  String.mk (s.toList.map Char.toLower)

/-- `to_mm` (units.py lines 44-54): convert `amount` in unit
`unit_uri_or_code` to millimetres; URI table, then code table, then the
lowercased-symbol table; `none` when the unit is unrecognized. -/
def to_mm (amount : ℚ) (unit_uri_or_code : Option String) : Option ℚ :=
  match unit_uri_or_code with
  | none => none
  | some uon =>
    match dlookup WIKIDATA_UNIT_TO_MM uon with
    | some f => some (amount * f)
    | none =>
      match dlookup UNITCODE_TO_MM uon with
      | some f => some (amount * f)
      | none =>
        let u := pyLower (pyStrip uon)
        match dlookup SYMBOL_TO_MM u with
        | some f => some (amount * f)
        | none => none

/-! ## Free-Text Dimension Parser (parse.py)

`_DIM_RE` and `_NUM_UNIT_RE` are modelled by an explicit backtracking
matcher with `re.search` semantics: try each start position left to right;
at a position, enumerate the candidate matches of the numeric sub-pattern
`\d{1,4}(?:[\.,]\d{1,3})?` in the greedy (priority) order of the regex
engine and take the first candidate whose continuation succeeds. `\s*` and
the unit alternation are deterministic here because no unit alternative
starts with whitespace, a separator, or a digit. `\d` is modelled as the
ASCII digits (the texts in play are ASCII). -/

/-- The regex class `\d`, i.e. the ASCII digits (same test as
`isDigitChar`, phrased over `Char.toNat` for direct arithmetic use). -/
def isDigitChar (c : Char) : Bool :=
  48 ≤ c.toNat && c.toNat ≤ 57

/-- The separator class `[×xX*]` of `_DIM_RE`. -/
def isSepChar (c : Char) : Bool :=
  c == '×' || c == 'x' || c == 'X' || c == '*'

/-- Candidate matches of the optional fraction `(?:[\.,]\d{1,3})?` at the
start of `cs`, as (matched chars, rest) in the engine's priority order:
longest fraction first, then the empty (absent-group) match. -/
def fracCandidates (cs : List Char) : List (List Char × List Char) :=
  match cs with
  | [] => [([], [])]
  | c :: rest =>
    if c = '.' ∨ c = ',' then
      let ds := rest.takeWhile isDigitChar
      let n := min ds.length 3
      ((List.range n).map (fun t =>
        let j := n - t
        (c :: ds.take j, rest.drop j))) ++ [([], cs)]
    else [([], cs)]

/-- Candidate matches of `\d{1,4}(?:[\.,]\d{1,3})?` at the start of `cs`,
in priority order: more integer digits first, and for a fixed integer part
the fraction candidates in their own priority order. Empty when `cs` does
not start with a digit. -/
def numCandidates (cs : List Char) : List (List Char × List Char) :=
  let ds := cs.takeWhile isDigitChar
  let m := min ds.length 4
  (List.range m).flatMap (fun t =>
    let k := m - t
    (fracCandidates (cs.drop k)).map (fun fr => (ds.take k ++ fr.1, fr.2)))

/-- Value of a run of ASCII digits. -/
def digitsToNat (ds : List Char) : Nat :=
  ds.foldl (fun n c => 10 * n + (c.toNat - 48)) 0

/-- `_to_float` (parse.py lines 17-18) applied to a matched numeric token:
replace `,` by `.` and read the decimal literal (exactly, as a rational). -/
def tokenToRat (tok : List Char) : ℚ :=
  let tok2 := tok.map (fun c => if c = ',' then '.' else c)
  let ip := tok2.takeWhile isDigitChar
  let rest := tok2.dropWhile isDigitChar
  match rest with
  | [] => (digitsToNat ip : ℚ)
  | _ :: fr => (digitsToNat ip : ℚ) + (digitsToNat fr : ℚ) / (10 : ℚ) ^ fr.length

/-- The unit alternation of both regexes, in source order (the regex engine
commits to the first alternative that matches, and nothing follows the
group, so no backtracking across alternatives occurs). -/
def unitAlts : List String :=
  ["mm", "millimetre", "millimeter", "cm", "centimetre", "centimeter",
   "m", "metre", "meter", "in", "inch", "inches", "″", "\"",
   "ft", "foot", "feet", "′"]

/-- Case-insensitive "starts with" (`re.IGNORECASE`). -/
def ciStarts : List Char → List Char → Bool
  | [], _ => true
  | _ :: _, [] => false
  | a :: p, b :: cs => a.toLower == b.toLower && ciStarts p cs

/-- Match the unit alternation at the start of `cs`; the capture is the
matched slice of the input (original case). -/
def matchUnit (cs : List Char) : Option (List Char) :=
  (unitAlts.find? (fun u => ciStarts u.toList cs)).map (fun u => cs.take u.length)

/-- `_NUM_UNIT_RE` anchored at the start of `cs`: the captures as raw
character slices (the numeric token and the unit capture). -/
def singleAt (cs : List Char) : Option (List Char × List Char) :=
  (numCandidates cs).findSome? (fun nc =>
    let rest := nc.2.dropWhile pyIsSpace
    match matchUnit rest with
    | some u => some (nc.1, u)
    | none => none)

/-- `re.search` with `_NUM_UNIT_RE`: first start position that matches. -/
def searchSingle : List Char → Option (List Char × List Char)
  | [] => none
  | c :: rest =>
    match singleAt (c :: rest) with
    | some r => some r
    | none => searchSingle rest

/-- `parse_single` (parse.py lines 36-40): first `number unit` occurrence,
with `_to_float` applied to the value capture. -/
def parse_single (text : String) : Option (ℚ × String) :=
  (searchSingle text.toList).map (fun r => (tokenToRat r.1, String.mk r.2))

/-- `_DIM_RE` anchored at the start of `cs`: three numbers separated by
`[×xX*]`, then an optional unit, all as raw character slices. The third
number and the optional unit cannot fail, so they commit greedily. -/
def tripletAt (cs : List Char) :
    Option (List Char × List Char × List Char × Option (List Char)) :=
  (numCandidates cs).findSome? (fun na =>
    let r1 := na.2.dropWhile pyIsSpace
    match r1 with
    | [] => none
    | s1 :: r2 =>
      if isSepChar s1 then
        let r2s := r2.dropWhile pyIsSpace
        (numCandidates r2s).findSome? (fun nb =>
          let r3 := nb.2.dropWhile pyIsSpace
          match r3 with
          | [] => none
          | s2 :: r4 =>
            if isSepChar s2 then
              let r4s := r4.dropWhile pyIsSpace
              match numCandidates r4s with
              | [] => none
              | nc :: _ =>
                let r5 := nc.2.dropWhile pyIsSpace
                some (na.1, nb.1, nc.1, matchUnit r5)
            else none)
      else none)

/-- `re.search` with `_DIM_RE`: first start position that matches. -/
def searchTriplet : List Char → Option (List Char × List Char × List Char × Option (List Char))
  | [] => none
  | c :: rest =>
    match tripletAt (c :: rest) with
    | some r => some r
    | none => searchTriplet rest

/-- `parse_triplet` (parse.py lines 23-31): `_to_float` on the three value
captures, unit capture passed through (possibly absent). -/
def parse_triplet (text : String) : Option (ℚ × ℚ × ℚ × Option String) :=
  (searchTriplet text.toList).map (fun r =>
    (tokenToRat r.1, tokenToRat r.2.1, tokenToRat r.2.2.1, r.2.2.2.map String.mk))

/-- `normalize_dims_from_text` (parse.py lines 45-59): triplet first, then
the single number+unit fallback; `factor = to_mm(1.0, unit) or 1.0`. -/
def normalize_dims_from_text (text : String) : Option Dict :=
  match parse_triplet text with
  | some (a, b, c, unit) =>
    let factor := pyOrRat (to_mm 1 unit) 1
    some [("L", a * factor), ("W", b * factor), ("H", c * factor)]
  | none =>
    match parse_single text with
    | some (v, u) =>
      let factor := pyOrRat (to_mm 1 (some u)) 1
      some [("L", v * factor)]
    | none => none

example : searchTriplet "152 × 106 × 60 mm".toList =
    some (['1','5','2'], ['1','0','6'], ['6','0'], some ['m','m']) := by decide
example : searchSingle "45 mm".toList = some (['4','5'], ['m','m']) := by decide
example : searchSingle "12345 mm".toList = some (['2','3','4','5'], ['m','m']) := by decide
example : searchTriplet "ab 5,5x2x3cm".toList =
    some (['5',',','5'], ['2'], ['3'], some ['c','m']) := by decide
example : searchSingle "no dims here".toList = none := by decide
example : searchTriplet "45 mm".toList = none := by decide

/-! ## Structured Knowledge Provider (wikidata.py)

The SPARQL round-trip is abstracted into the list of result-set rows; the
row-processing loop, the axis mapping, and the confidence computation are
embedded from the source. -/

/-- One binding row of the SPARQL result set. -/
structure WRow where
  prop : String
  amount : ℚ
  unit : Option String
  refs : Nat
  official : Option String
  label : Option String
deriving DecidableEq

/-- The loop state of the row-processing loop (wikidata.py lines 7-34). -/
structure WState where
  dims : Dict
  refs_total : Nat
  official : Option String
  label : Option String
deriving DecidableEq

/-- One iteration of the row loop (wikidata.py lines 11-34). A row whose
unit fails `to_mm` hits `continue`, which skips the axis mapping AND the
refs/official/label accumulation for that row. -/
def wdStep (st : WState) (b : WRow) : WState :=
  match to_mm b.amount b.unit with
  | none => st
  | some mm =>
    let dims :=
      if b.prop = "height" then dictSet st.dims "H" mm
      else if b.prop = "width" then dictSet st.dims "W" mm
      else if b.prop = "length" ∨ b.prop = "depth" then dictSetdefault st.dims "L" mm
      else if b.prop = "thickness" then dictSet st.dims "T" mm
      else if b.prop = "diameter" then dictSet st.dims "DIAMETER" mm
      else st.dims
    { dims := dims
      refs_total := st.refs_total + b.refs
      official := match b.official with | some o => some o | none => st.official
      label := match b.label with | some l => some l | none => st.label }

/-- `fetch_wikidata_dimensions` after the SPARQL response is decoded into
`rows` (wikidata.py lines 2-53): process rows, return `none` when the
result set or the collected dims are empty, else build the result with
confidence `min(base_conf, 0.95)` where `base_conf` is 0.8 plus 0.1 when
the accumulated `refs_total` is positive. -/
def fetch_wikidata_core (qid : String) (rows : List WRow) :
    Option (DimensionsResult × Option String) :=
  if rows.isEmpty then none
  else
    let st := rows.foldl wdStep ⟨[], 0, none, none⟩
    if st.dims.isEmpty then none
    else
      let base_conf : ℚ := if 0 < st.refs_total then 8/10 + 1/10 else 8/10
      some
        ({ item_id := some qid
           name := st.label
           dims_mm := st.dims
           source := "Wikidata"
           source_url := some ("https://www.wikidata.org/wiki/" ++ qid)
           confidence := min base_conf (95/100)
           evidence := ["SPARQL rows=" ++ toString rows.length
                          ++ " refs_total=" ++ toString st.refs_total]
           raw := Raw.str "rows" },
         st.official)

/-! ## Embedded-Metadata Provider (providers/schema_org.py) -/

/-- A schema.org QuantitativeValue as far as dimension extraction reads it. -/
structure QV where
  value : Option ℚ
  unitCode : Option String
deriving DecidableEq

/-- The `size` field of a Product: absent/falsy, a QuantitativeValue dict,
or a free-text string. -/
inductive SizeVal where
  | absent : SizeVal
  | qv : QV → SizeVal
  | str : String → SizeVal
deriving DecidableEq

/-- One `additionalProperty` entry (name/value). -/
structure AddProp where
  name : Option String
  value : Option String
deriving DecidableEq

/-- The fields of a Product-typed metadata record that extraction reads. -/
structure Product where
  depth : Option QV
  width : Option QV
  height : Option QV
  size : SizeVal
  additionalProperty : List AddProp
deriving DecidableEq

/-- Modelled from the spec: `qv_to_mm` is referenced by the visible part of
schema_org.py but its definition is in the truncated portion of the file;
per spec section 4.5(a) a typed quantity object exposes its own value and
unit and is normalized directly through the Unit Normalizer. -/
def qv_to_mm (q : QV) : Option ℚ :=
  match q.value with
  | none => none
  | some v => to_mm v q.unitCode

/-- `_extract_from_product` (providers/schema_org.py). The head of the
function (down to `dims[out_key] = mm`, line 2 of the visible text) is
modelled from the spec: a loop over the typed-quantity dimension fields
(depth→L, width→W, height→H) assigning each normalized value directly.
The `size` branch and the `additionalProperty` loop (visible lines 5-29)
are embedded from the source; note the source computes the lowercased
property `name` but never uses it. -/
def _extract_from_product (p : Product) : Dict :=
  let dims : Dict := []
  let dims := match p.depth with
    | some q => (match qv_to_mm q with | some mm => dictSet dims "L" mm | none => dims)
    | none => dims
  let dims := match p.width with
    | some q => (match qv_to_mm q with | some mm => dictSet dims "W" mm | none => dims)
    | none => dims
  let dims := match p.height with
    | some q => (match qv_to_mm q with | some mm => dictSet dims "H" mm | none => dims)
    | none => dims
  let dims := match p.size with
    | SizeVal.absent => dims
    | SizeVal.qv q => (match qv_to_mm q with | some mm => dictSetdefault dims "L" mm | none => dims)
    | SizeVal.str s =>
        if s = "" then dims
        else
          match normalize_dims_from_text s with
          | some parsed => if parsed.isEmpty then dims else dictUnion parsed dims
          | none => dims
  let dims := p.additionalProperty.foldl (fun dims ap =>
    let _name := pyLower (match ap.name with | some n => n | none => "")
    match ap.value with
    | none => dims
    | some v =>
        if v = "" then dims
        else
          match normalize_dims_from_text v with
          | some parsed => if parsed.isEmpty then dims else dictUnion parsed dims
          | none => dims) dims
  dims

/-- Python exceptions that can escape `fetch_schema_org`. -/
inductive PyExc where
  | httpStatusError : Nat → PyExc
  | transportError : PyExc
deriving DecidableEq

/-- Outcome of the HTTP round-trip plus metadata extraction: either a
response with its status code and the Product-typed records embedded in the
page, or a transport failure (connection error / timeout). -/
inductive HttpOutcome where
  | ok : Nat → List Product → HttpOutcome
  | netError : HttpOutcome
deriving DecidableEq

/-- `fetch_schema_org` (providers/schema_org.py lines 37-79), with the
network and extruct effects abstracted into the `HttpOutcome` argument.
`client.get` raises on transport errors and timeouts, and
`r.raise_for_status()` raises `HTTPStatusError` on any non-2xx status;
nothing in the function catches, so both escape as exceptions
(`Except.error`). On success, dims from all Product candidates are
accumulated with `dims.update(extracted)` and the result is built with
confidence `0.9 if url else 0.85`. (The `extruct is None` import guard is
modelled as extruct being installed.) -/
def fetch_schema_org (url : String) (out : HttpOutcome) :
    Except PyExc (Option DimensionsResult) :=
  match out with
  | HttpOutcome.netError => Except.error PyExc.transportError
  | HttpOutcome.ok status products =>
    if status < 200 ∨ 300 ≤ status then Except.error (PyExc.httpStatusError status)
    else
      let dims := products.foldl (fun dims prod => dictUnion dims (_extract_from_product prod)) []
      if dims.isEmpty then Except.ok none
      else
        Except.ok (some
          { item_id := none
            name := none
            dims_mm := dims
            source := "schema.org"
            source_url := some url
            confidence := if url = "" then 85/100 else 9/10
            evidence := ["schema.org Product fields from " ++ url]
            raw := Raw.str "extruct" })

/-- Modelled from the spec: the section of fetcher.py that invokes the
embedded-metadata provider is missing from src/ (the file is truncated; only
the later encyclopedia-fallback section is visible, which wraps its provider
call in `try/except Exception` and degrades a failure to `None`). Per spec
sections 4.5 and 5, a provider failure (timeout, non-2xx, parse exception)
degrades that single provider's contribution to none and never aborts the
overall request; each provider call is guarded independently. -/
def fetch_schema_org_guarded (url : String) (out : HttpOutcome) :
    Option DimensionsResult :=
  match fetch_schema_org url out with
  | Except.error _ => none
  | Except.ok r => r

/-! ## Store model for the no-mutation claim

Python objects live on a heap; a `DimensionsResult` value is reachable
through a reference. `merge_missing` contains no assignment to any field of
`self` or `other` and no call that mutates them: every field of the merged
object is built from fresh constructions (`{**a, **b}` allocates a new dict,
`[*a, *b]` a new list, the dataclass constructor a new object). The store
model makes the frame property statable: a store is the list of allocated
results, a reference is an index, and a merge call allocates one new cell
computed by the pure `merge_missing`. -/

def mergeAlloc (σ : List DimensionsResult) (i j : Nat) :
    List DimensionsResult × Nat :=
  (σ ++ [merge_missing (σ.getD i default) (σ.getD j default)], σ.length)

/-! ## Theorems: Result Merger (C1, C2, C9) -/

/-- C1: merge gives precedence to the axis values of the higher-confidence
input; for every axis present in the higher-confidence input the merged
value equals that input's value; axes absent there are filled in from the
lower-confidence input; equal confidences favor the primary (`self`). -/
theorem merge_missing_axis_precedence (a b : DimensionsResult) (k : String) :
    (b.confidence ≤ a.confidence →
      ((dlookup a.dims_mm k).isSome →
          dlookup (merge_missing a b).dims_mm k = dlookup a.dims_mm k) ∧
      (dlookup a.dims_mm k = none →
          dlookup (merge_missing a b).dims_mm k = dlookup b.dims_mm k)) ∧
    (a.confidence < b.confidence →
      ((dlookup b.dims_mm k).isSome →
          dlookup (merge_missing a b).dims_mm k = dlookup b.dims_mm k) ∧
      (dlookup b.dims_mm k = none →
          dlookup (merge_missing a b).dims_mm k = dlookup a.dims_mm k)) := by
  constructor
  · intro hc
    have hif : (merge_missing a b).dims_mm = dictUnion b.dims_mm a.dims_mm := by
      simp [merge_missing, hc]
    rw [hif, dlookup_dictUnion]
    constructor
    · intro hs
      obtain ⟨v, hv⟩ := Option.isSome_iff_exists.mp hs
      simp [hv]
    · intro h0
      simp [h0]
  · intro hc
    have hif : (merge_missing a b).dims_mm = dictUnion a.dims_mm b.dims_mm := by
      simp [merge_missing, not_le.mpr hc]
    rw [hif, dlookup_dictUnion]
    constructor
    · intro hs
      obtain ⟨v, hv⟩ := Option.isSome_iff_exists.mp hs
      simp [hv]
    · intro h0
      simp [h0]

/-- Concrete merge inputs: a high-confidence primary with L and W, and a
lower-confidence secondary with a conflicting L and a new H. -/
def mergeExA : DimensionsResult :=
  { dims_mm := [("L", 152), ("W", 106)], source := "schema.org", confidence := 9/10 }

def mergeExB : DimensionsResult :=
  { dims_mm := [("L", 1), ("H", 600)], source := "Wikipedia infobox", confidence := 3/5 }

/-- C1 witness: on concrete inputs, the higher-confidence L survives and
the missing H is filled from the lower-confidence input. -/
theorem merge_missing_axis_precedence_witness :
    dlookup (merge_missing mergeExA mergeExB).dims_mm "L" = dlookup mergeExA.dims_mm "L" ∧
    dlookup (merge_missing mergeExA mergeExB).dims_mm "H" = dlookup mergeExB.dims_mm "H" :=
  ⟨((merge_missing_axis_precedence mergeExA mergeExB "L").1 (by norm_num [mergeExA, mergeExB])).1
      (by decide),
   ((merge_missing_axis_precedence mergeExA mergeExB "H").1 (by norm_num [mergeExA, mergeExB])).2
      (by decide)⟩

/-- C2: the merged confidence is exactly the maximum of the two inputs, so
it is never lower than either. -/
theorem merge_missing_confidence_max (a b : DimensionsResult) :
    (merge_missing a b).confidence = max a.confidence b.confidence ∧
    a.confidence ≤ (merge_missing a b).confidence ∧
    b.confidence ≤ (merge_missing a b).confidence := by
  refine ⟨rfl, ?_, ?_⟩
  · show a.confidence ≤ max a.confidence b.confidence
    exact le_max_left _ _
  · show b.confidence ≤ max a.confidence b.confidence
    exact le_max_right _ _

/-- C9: in the store model, merging leaves every previously allocated
result (in particular both inputs) unchanged, and the merged result lives
in a freshly allocated cell holding the pure `merge_missing` value. -/
theorem merge_missing_no_mutation (σ : List DimensionsResult) (i j k : Nat)
    (hk : k < σ.length) :
    (mergeAlloc σ i j).1.getD k default = σ.getD k default ∧
    σ.length ≤ (mergeAlloc σ i j).2 ∧
    (mergeAlloc σ i j).1.getD (mergeAlloc σ i j).2 default =
      merge_missing (σ.getD i default) (σ.getD j default) := by
  refine ⟨?_, le_refl _, ?_⟩
  · simp [mergeAlloc, List.getD, List.getElem?_append_left hk]
  · simp [mergeAlloc, List.getD]

/-- C9 witness: a concrete two-cell store; merging cells 0 and 1 leaves
cell 0 unchanged and allocates the merged value at the fresh index 2. -/
theorem merge_missing_no_mutation_witness :
    (mergeAlloc [mergeExA, mergeExB] 0 1).1.getD 0 default =
      [mergeExA, mergeExB].getD 0 default ∧
    [mergeExA, mergeExB].length ≤ (mergeAlloc [mergeExA, mergeExB] 0 1).2 ∧
    (mergeAlloc [mergeExA, mergeExB] 0 1).1.getD (mergeAlloc [mergeExA, mergeExB] 0 1).2 default =
      merge_missing ([mergeExA, mergeExB].getD 0 default) ([mergeExA, mergeExB].getD 1 default) :=
  merge_missing_no_mutation [mergeExA, mergeExB] 0 1 0 (by norm_num)

/-! ## Theorems: Unit Normalizer (C3) -/

/-- C3: `to_mm` looks the identifier up in the URI table first, then the
code table, then (after strip+lowercase) the symbol table, returning
`amount * factor` for the first hit; an identifier in none of the three
tables yields `none` (and a missing identifier yields `none`), never zero
and never an error. -/
theorem to_mm_lookup_order (amount : ℚ) (u : String) :
    (∀ f, dlookup WIKIDATA_UNIT_TO_MM u = some f →
        to_mm amount (some u) = some (amount * f)) ∧
    (dlookup WIKIDATA_UNIT_TO_MM u = none →
      ∀ f, dlookup UNITCODE_TO_MM u = some f →
        to_mm amount (some u) = some (amount * f)) ∧
    (dlookup WIKIDATA_UNIT_TO_MM u = none → dlookup UNITCODE_TO_MM u = none →
      ∀ f, dlookup SYMBOL_TO_MM (pyLower (pyStrip u)) = some f →
        to_mm amount (some u) = some (amount * f)) ∧
    (dlookup WIKIDATA_UNIT_TO_MM u = none → dlookup UNITCODE_TO_MM u = none →
      dlookup SYMBOL_TO_MM (pyLower (pyStrip u)) = none →
        to_mm amount (some u) = none) ∧
    to_mm amount none = none := by
  refine ⟨?_, ?_, ?_, ?_, rfl⟩
  · intro f hf
    simp [to_mm, hf]
  · intro h1 f hf
    simp [to_mm, h1, hf]
  · intro h1 h2 f hf
    simp [to_mm, h1, h2, hf]
  · intro h1 h2 h3
    simp [to_mm, h1, h2, h3]

/-- C3 witness: a code-table unit converts by its factor (after the URI
table missed), and an unknown unit yields `none`. -/
theorem to_mm_lookup_order_witness :
    to_mm 3 (some "CMT") = some (3 * 10) ∧ to_mm 3 (some "furlong") = none :=
  ⟨(to_mm_lookup_order 3 "CMT").2.1 (by decide) 10 (by decide),
   (to_mm_lookup_order 3 "furlong").2.2.2.1 (by decide) (by decide) (by decide)⟩

/-! ## Theorems: Free-Text Parser (C4) -/

lemma to_mm_one_mm : to_mm 1 (some "mm") = some 1 := by
  have h1 : dlookup WIKIDATA_UNIT_TO_MM "mm" = none := by decide
  have h2 : dlookup UNITCODE_TO_MM "mm" = none := by decide
  have h3 : dlookup SYMBOL_TO_MM (pyLower (pyStrip "mm")) = some 1 := by decide
  simp [to_mm, h1, h2, h3]

lemma factor_mm : pyOrRat (to_mm 1 (some "mm")) 1 = 1 := by
  rw [to_mm_one_mm]; norm_num [pyOrRat]

lemma tok152 : tokenToRat ['1', '5', '2'] = 152 := by
  have h : digitsToNat ['1', '5', '2'] = 152 := by decide
  have ht : List.takeWhile isDigitChar ['1', '5', '2'] = ['1', '5', '2'] := by decide
  have hd : List.dropWhile isDigitChar ['1', '5', '2'] = ([] : List Char) := by decide
  simp [tokenToRat, ht, hd]
  norm_num [h]

lemma tok106 : tokenToRat ['1', '0', '6'] = 106 := by
  have h : digitsToNat ['1', '0', '6'] = 106 := by decide
  have ht : List.takeWhile isDigitChar ['1', '0', '6'] = ['1', '0', '6'] := by decide
  have hd : List.dropWhile isDigitChar ['1', '0', '6'] = ([] : List Char) := by decide
  simp [tokenToRat, ht, hd]
  norm_num [h]

lemma tok60 : tokenToRat ['6', '0'] = 60 := by
  have h : digitsToNat ['6', '0'] = 60 := by decide
  have ht : List.takeWhile isDigitChar ['6', '0'] = ['6', '0'] := by decide
  have hd : List.dropWhile isDigitChar ['6', '0'] = ([] : List Char) := by decide
  simp [tokenToRat, ht, hd]
  norm_num [h]

lemma parse_triplet_scenario :
    parse_triplet "152 × 106 × 60 mm" = some (152, 106, 60, some "mm") := by
  have hs : searchTriplet "152 × 106 × 60 mm".toList =
      some (['1', '5', '2'], ['1', '0', '6'], ['6', '0'], some ['m', 'm']) := by decide
  have hmk : String.mk ['m', 'm'] = "mm" := by decide
  unfold parse_triplet
  rw [hs]
  simp [tok152, tok106, tok60, hmk]

lemma normalize_scenario :
    normalize_dims_from_text "152 × 106 × 60 mm" =
      some [("L", 152), ("W", 106), ("H", 60)] := by
  simp [normalize_dims_from_text, parse_triplet_scenario, factor_mm]

/-- C4: a matched triplet maps its three numbers positionally to L, W, H;
with no unit token the values pass through unchanged (factor 1.0); and the
encyclopedia cell text "152 × 106 × 60 mm" normalizes to
L=152, W=106, H=60. -/
theorem normalize_triplet_positional (text : String) (a b c : ℚ) (u : Option String)
    (h : parse_triplet text = some (a, b, c, u)) :
    normalize_dims_from_text text =
      some [("L", a * pyOrRat (to_mm 1 u) 1),
            ("W", b * pyOrRat (to_mm 1 u) 1),
            ("H", c * pyOrRat (to_mm 1 u) 1)] ∧
    (u = none → normalize_dims_from_text text = some [("L", a), ("W", b), ("H", c)]) ∧
    normalize_dims_from_text "152 × 106 × 60 mm" =
      some [("L", 152), ("W", 106), ("H", 60)] := by
  refine ⟨?_, ?_, normalize_scenario⟩
  · simp [normalize_dims_from_text, h]
  · intro hu
    subst hu
    simp [normalize_dims_from_text, h, to_mm, pyOrRat]

/-- C4 witness: a concrete unit-less triplet text parses and passes its
values through unchanged. -/
theorem normalize_triplet_positional_witness :
    parse_triplet "152 x 106 x 60" = some (152, 106, 60, none) ∧
    normalize_dims_from_text "152 x 106 x 60" = some [("L", 152), ("W", 106), ("H", 60)] := by
  have hs : searchTriplet "152 x 106 x 60".toList =
      some (['1', '5', '2'], ['1', '0', '6'], ['6', '0'], none) := by decide
  have hp : parse_triplet "152 x 106 x 60" = some (152, 106, 60, none) := by
    unfold parse_triplet
    rw [hs]
    simp [tok152, tok106, tok60]
  exact ⟨hp, (normalize_triplet_positional _ 152 106 60 none hp).2.1 rfl⟩

/-! ## Theorems: numeric-token shape and value bounds (C10) -/

/-- Shape of any candidate match of `\d{1,4}(?:[\.,]\d{1,3})?`: 1-4 integer
digits, then optionally a separator and 1-3 fraction digits. -/
def NumTokenShape (tok : List Char) : Prop :=
  ∃ ip fr1, tok = ip ++ fr1 ∧ ip ≠ [] ∧ ip.length ≤ 4 ∧
    (∀ c ∈ ip, isDigitChar c = true) ∧
    (fr1 = [] ∨ ∃ c0 fds, fr1 = c0 :: fds ∧ (c0 = '.' ∨ c0 = ',') ∧
      (∀ c ∈ fds, isDigitChar c = true) ∧ fds.length ≤ 3)

lemma fracCandidates_shape (cs : List Char) (fr : List Char × List Char)
    (h : fr ∈ fracCandidates cs) :
    fr.1 = [] ∨ ∃ c0 fds, fr.1 = c0 :: fds ∧ (c0 = '.' ∨ c0 = ',') ∧
      (∀ c ∈ fds, isDigitChar c = true) ∧ fds.length ≤ 3 := by
  cases cs with
  | nil =>
      simp only [fracCandidates] at h
      simp at h
      left; simp [h]
  | cons c rest =>
      simp only [fracCandidates] at h
      by_cases hc : c = '.' ∨ c = ','
      · rw [if_pos hc] at h
        rcases List.mem_append.mp h with h1 | h2
        · obtain ⟨t, ht, heq⟩ := List.mem_map.mp h1
          subst heq
          right
          refine ⟨c, _, rfl, hc, ?_, ?_⟩
          · intro x hx
            exact List.mem_takeWhile_imp (List.take_subset _ _ hx)
          · refine (List.length_take_le _ _).trans ?_
            have := Nat.min_le_right (rest.takeWhile isDigitChar).length 3
            omega
        · simp at h2
          left; simp [h2]
      · rw [if_neg hc] at h
        simp at h
        left; simp [h]

lemma numCandidates_shape (cs : List Char) (nc : List Char × List Char)
    (h : nc ∈ numCandidates cs) : NumTokenShape nc.1 := by
  simp only [numCandidates, List.mem_flatMap, List.mem_map, List.mem_range] at h
  obtain ⟨t, ht, fr, hfr, heq⟩ := h
  subst heq
  have hlen : t < min (cs.takeWhile isDigitChar).length 4 := ht
  refine ⟨(cs.takeWhile isDigitChar).take (min (cs.takeWhile isDigitChar).length 4 - t),
          fr.1, rfl, ?_, ?_, ?_, fracCandidates_shape _ fr hfr⟩
  · have h1 : ((cs.takeWhile isDigitChar).take
        (min (cs.takeWhile isDigitChar).length 4 - t)).length =
        min (min (cs.takeWhile isDigitChar).length 4 - t)
          (cs.takeWhile isDigitChar).length := List.length_take _ _
    apply List.ne_nil_of_length_pos
    omega
  · refine (List.length_take_le _ _).trans ?_
    have := Nat.min_le_right (cs.takeWhile isDigitChar).length 4
    omega
  · intro x hx
    exact List.mem_takeWhile_imp (List.take_subset _ _ hx)

lemma foldl_digits_lt (ds : List Char) : ∀ n : Nat,
    (∀ c ∈ ds, isDigitChar c = true) →
    ds.foldl (fun acc c => 10 * acc + (c.toNat - 48)) n < (n + 1) * 10 ^ ds.length := by
  induction ds with
  | nil => intro n _; simp
  | cons c rest ih =>
      intro n hall
      have hc9 : c.toNat - 48 ≤ 9 := by
        have hc := hall c (List.mem_cons_self _ _)
        simp [isDigitChar] at hc
        omega
      have ih2 := ih (10 * n + (c.toNat - 48)) (fun x hx => hall x (List.mem_cons_of_mem _ hx))
      simp only [List.foldl_cons, List.length_cons]
      refine lt_of_lt_of_le ih2 ?_
      have hstep : 10 * n + (c.toNat - 48) + 1 + 1 ≤ (n + 1) * 10 + 1 := by omega
      have : (10 * n + (c.toNat - 48) + 1) ≤ (n + 1) * 10 := by omega
      calc (10 * n + (c.toNat - 48) + 1) * 10 ^ rest.length
          ≤ ((n + 1) * 10) * 10 ^ rest.length := Nat.mul_le_mul_right _ this
        _ = (n + 1) * 10 ^ (rest.length + 1) := by ring

lemma digitsToNat_lt (ds : List Char) (h : ∀ c ∈ ds, isDigitChar c = true) :
    digitsToNat ds < 10 ^ ds.length := by
  simpa [digitsToNat] using foldl_digits_lt ds 0 h

lemma map_repl_eq_self (l : List Char) (h : ∀ c ∈ l, isDigitChar c = true) :
    l.map (fun c => if c = ',' then '.' else c) = l := by
  have hcongr : ∀ c ∈ l, (if c = ',' then '.' else c) = id c := by
    intro c hc
    have hd := h c hc
    have hne : c ≠ ',' := by
      intro hcc
      subst hcc
      simp [isDigitChar] at hd
    simp [hne]
  rw [List.map_congr_left hcongr, List.map_id]

lemma takeWhile_digits_append (ip rest : List Char)
    (hip : ∀ c ∈ ip, isDigitChar c = true)
    (hrest : rest = [] ∨ ∃ d tl, rest = d :: tl ∧ isDigitChar d = false) :
    (ip ++ rest).takeWhile isDigitChar = ip ∧
    (ip ++ rest).dropWhile isDigitChar = rest := by
  induction ip with
  | nil =>
      simp only [List.nil_append]
      rcases hrest with h | ⟨d, tl, hr, hd⟩
      · subst h; simp
      · subst hr; simp [List.takeWhile_cons, List.dropWhile_cons, hd]
  | cons c ip ih =>
      have hc := hip c (List.mem_cons_self _ _)
      have ih2 := ih (fun x hx => hip x (List.mem_cons_of_mem _ hx))
      simp [List.takeWhile_cons, List.dropWhile_cons, hc, ih2.1, ih2.2]

lemma tokenToRat_shape_bound (tok : List Char) (h : NumTokenShape tok) :
    0 ≤ tokenToRat tok ∧ tokenToRat tok < 10000 := by
  obtain ⟨ip, fr1, rfl, hne, hlen, hdig, hfr⟩ := h
  have hipmap : ip.map (fun c => if c = ',' then '.' else c) = ip := map_repl_eq_self ip hdig
  have h10 : (10 : ℕ) ^ 4 = 10000 := by norm_num
  have hipbound : digitsToNat ip < 10000 := by
    have := lt_of_lt_of_le (digitsToNat_lt ip hdig) (Nat.pow_le_pow_right (by norm_num) hlen)
    omega
  rcases hfr with rfl | ⟨c0, fds, rfl, hc0, hfdig, hflen⟩
  · have h1 : ip.takeWhile isDigitChar = ip := List.takeWhile_eq_self_iff.mpr hdig
    have h2 : ip.dropWhile isDigitChar = [] := List.dropWhile_eq_nil_iff.mpr hdig
    simp only [tokenToRat, List.append_nil, hipmap, h1, h2]
    constructor
    · positivity
    · exact_mod_cast hipbound
  · have hfr1map : (c0 :: fds).map (fun c => if c = ',' then '.' else c) = '.' :: fds := by
      rcases hc0 with rfl | rfl <;> simp [map_repl_eq_self fds hfdig]
    have hmap : (ip ++ c0 :: fds).map (fun c => if c = ',' then '.' else c) =
        ip ++ '.' :: fds := by
      rw [List.map_append, hipmap, hfr1map]
    have hsplit := takeWhile_digits_append ip ('.' :: fds) hdig
      (Or.inr ⟨'.', fds, rfl, by decide⟩)
    simp only [tokenToRat, hmap, hsplit.1, hsplit.2]
    constructor
    · positivity
    · have hfb : (digitsToNat fds : ℚ) / 10 ^ fds.length < 1 := by
        rw [div_lt_one (by positivity)]
        exact_mod_cast digitsToNat_lt fds hfdig
      have hib : (digitsToNat ip : ℚ) ≤ 9999 := by
        have : digitsToNat ip ≤ 9999 := by omega
        exact_mod_cast this
      linarith

lemma searchSingle_shape : ∀ cs tok u, searchSingle cs = some (tok, u) →
    NumTokenShape tok := by
  intro cs
  induction cs with
  | nil => intro tok u h; simp [searchSingle] at h
  | cons c rest ih =>
      intro tok u h
      unfold searchSingle at h
      cases hA : singleAt (c :: rest) with
      | some r =>
          rw [hA] at h
          obtain rfl := Option.some.inj h
          simp only [singleAt] at hA
          obtain ⟨nc, hmem, hf⟩ := List.exists_of_findSome?_eq_some hA
          split at hf
          · obtain h1 := Option.some.inj hf
            have htok : nc.1 = tok := congrArg Prod.fst h1
            rw [← htok]
            exact numCandidates_shape _ nc hmem
          · exact absurd hf (by simp)
      | none =>
          rw [hA] at h
          exact ih tok u h

lemma searchTriplet_shape : ∀ cs ta tb tc u,
    searchTriplet cs = some (ta, tb, tc, u) →
    NumTokenShape ta ∧ NumTokenShape tb ∧ NumTokenShape tc := by
  intro cs
  induction cs with
  | nil => intro ta tb tc u h; simp [searchTriplet] at h
  | cons c rest ih =>
      intro ta tb tc u h
      unfold searchTriplet at h
      cases hA : tripletAt (c :: rest) with
      | some r =>
          rw [hA] at h
          obtain rfl := Option.some.inj h
          simp only [tripletAt] at hA
          obtain ⟨na, hmema, hfa⟩ := List.exists_of_findSome?_eq_some hA
          split at hfa
          · exact absurd hfa (by simp)
          · split at hfa
            · obtain ⟨nb, hmemb, hfb⟩ := List.exists_of_findSome?_eq_some hfa
              split at hfb
              · exact absurd hfb (by simp)
              · split at hfb
                · split at hfb
                  · exact absurd hfb (by simp)
                  · rename_i nc tl hlist
                    obtain h1 := Option.some.inj hfb
                    have hta : na.1 = ta := congrArg (fun p => p.1) h1
                    have htb : nb.1 = tb := congrArg (fun p => p.2.1) h1
                    have htc : nc.1 = tc := congrArg (fun p => p.2.2.1) h1
                    have hmemc : nc ∈ nc :: tl := List.mem_cons_self _ _
                    rw [← hlist] at hmemc
                    exact ⟨hta ▸ numCandidates_shape _ na hmema,
                           htb ▸ numCandidates_shape _ nb hmemb,
                           htc ▸ numCandidates_shape _ nc hmemc⟩
                · exact absurd hfb (by simp)
            · exact absurd hfa (by simp)
      | none =>
          rw [hA] at h
          exact ih ta tb tc u h

/-- C10 counterexample: in the text "12345 mm" every maximal numeric run
has five digits, yet the parser still finds a match — `re.search` restarts
one character later and matches the four-digit sub-token "2345", so the
text yields the spurious dimension 2345 mm instead of no match. -/
theorem parse_single_five_digit_cex :
    parse_single "12345 mm" = some (2345, "mm") := by
  have hs : searchSingle "12345 mm".toList = some (['2', '3', '4', '5'], ['m', 'm']) := by
    decide
  have h : digitsToNat ['2', '3', '4', '5'] = 2345 := by decide
  have ht : List.takeWhile isDigitChar ['2', '3', '4', '5'] = ['2', '3', '4', '5'] := by decide
  have hd : List.dropWhile isDigitChar ['2', '3', '4', '5'] = ([] : List Char) := by decide
  have htok : tokenToRat ['2', '3', '4', '5'] = 2345 := by
    simp [tokenToRat, ht, hd]
    norm_num [h]
  have hmk : String.mk ['m', 'm'] = "mm" := by decide
  unfold parse_single
  rw [hs]
  simp [htok, hmk]

/-- C10 (amended): the numeric sub-pattern accepts 1-4 integer digits and
at most 3 fraction digits, so every value `parse_single` or `parse_triplet`
extracts lies in [0, 10000) — in particular 12345 is never returned as a
dimension value. (But a text whose numbers all have five or more digits can
still match on a 4-digit sub-token, as the counterexample shows.) -/
theorem parse_value_upper_bound (text : String) :
    (∀ v u, parse_single text = some (v, u) → 0 ≤ v ∧ v < 10000) ∧
    (∀ a b c u, parse_triplet text = some (a, b, c, u) →
      (0 ≤ a ∧ a < 10000) ∧ (0 ≤ b ∧ b < 10000) ∧ (0 ≤ c ∧ c < 10000)) := by
  constructor
  · intro v u h
    unfold parse_single at h
    rw [Option.map_eq_some'] at h
    obtain ⟨r, hr, heq⟩ := h
    obtain ⟨tok, uu⟩ := r
    rw [Prod.mk.injEq] at heq
    obtain ⟨rfl, rfl⟩ := heq
    exact tokenToRat_shape_bound tok (searchSingle_shape text.toList tok uu hr)
  · intro a b c u h
    unfold parse_triplet at h
    rw [Option.map_eq_some'] at h
    obtain ⟨r, hr, heq⟩ := h
    obtain ⟨ta, tb, tc, tu⟩ := r
    rw [Prod.mk.injEq] at heq
    obtain ⟨rfl, heq⟩ := heq
    rw [Prod.mk.injEq] at heq
    obtain ⟨rfl, heq⟩ := heq
    rw [Prod.mk.injEq] at heq
    obtain ⟨rfl, rfl⟩ := heq
    obtain ⟨h1, h2, h3⟩ := searchTriplet_shape text.toList ta tb tc tu hr
    exact ⟨tokenToRat_shape_bound ta h1, tokenToRat_shape_bound tb h2,
           tokenToRat_shape_bound tc h3⟩

/-- C10 witness: the bound theorem applied at the concrete text "45 mm". -/
theorem parse_value_upper_bound_witness : (0 : ℚ) ≤ 45 ∧ (45 : ℚ) < 10000 := by
  have hs : searchSingle "45 mm".toList = some (['4', '5'], ['m', 'm']) := by decide
  have h : digitsToNat ['4', '5'] = 45 := by decide
  have ht : List.takeWhile isDigitChar ['4', '5'] = ['4', '5'] := by decide
  have hd : List.dropWhile isDigitChar ['4', '5'] = ([] : List Char) := by decide
  have htok : tokenToRat ['4', '5'] = 45 := by
    simp [tokenToRat, ht, hd]
    norm_num [h]
  have hmk : String.mk ['m', 'm'] = "mm" := by decide
  have hp : parse_single "45 mm" = some (45, "mm") := by
    unfold parse_single
    rw [hs]
    simp [htok, hmk]
  exact (parse_value_upper_bound "45 mm").1 45 "mm" hp

/-! ## Theorems: Structured Knowledge Provider (C6, C7) -/

lemma dlookup_dictSet (d : Dict) (k : String) (v : ℚ) (q : String) :
    dlookup (dictSet d k v) q = if k = q then some v else dlookup d q := by
  induction d with
  | nil => simp [dictSet, dlookup]
  | cons p rest ih =>
      obtain ⟨k1, v1⟩ := p
      by_cases h1 : k1 = k
      · subst h1
        by_cases h2 : k1 = q <;> simp [dictSet, dlookup, h2]
      · by_cases h2 : k1 = q
        · subst h2
          have hkq : k ≠ k1 := fun hh => h1 hh.symm
          simp [dictSet, dlookup, h1, hkq]
        · simp [dictSet, dlookup, h1, h2, ih]

lemma dlookup_dictSetdefault (d : Dict) (k : String) (v : ℚ) (q : String) :
    dlookup (dictSetdefault d k v) q =
      if k = q then
        (match dlookup d k with
         | some w => some w
         | none => some v)
      else dlookup d q := by
  unfold dictSetdefault
  by_cases h : (dlookup d k).isSome
  · rw [if_pos h]
    obtain ⟨w, hw⟩ := Option.isSome_iff_exists.mp h
    by_cases h2 : k = q
    · subst h2; simp [hw]
    · simp [h2]
  · rw [if_neg h]
    have hnone : dlookup d k = none := Option.not_isSome_iff_eq_none.mp h
    rw [dlookup_append]
    by_cases h2 : k = q
    · subst h2; simp [hnone, dlookup]
    · cases hq : dlookup d q <;> simp [h2, hq, dlookup, Ne.symm h2]

/-- The millimetre value a row contributes to a given last-wins axis: the
last row with the given property name whose unit normalizes. -/
def lastAxisMM (p : String) : List WRow → Option ℚ
  | [] => none
  | b :: rest =>
    match lastAxisMM p rest with
    | some v => some v
    | none =>
      if b.prop = p then
        match to_mm b.amount b.unit with
        | some v => some v
        | none => none
      else none

/-- The first length/depth row whose unit normalizes (first occurrence
wins for the L axis). -/
def firstLenMM : List WRow → Option ℚ
  | [] => none
  | b :: rest =>
    if b.prop = "length" ∨ b.prop = "depth" then
      match to_mm b.amount b.unit with
      | some v => some v
      | none => firstLenMM rest
    else firstLenMM rest

lemma wdStep_lookup (st : WState) (b : WRow) :
    (dlookup (wdStep st b).dims "H" =
      (match to_mm b.amount b.unit with
       | none => dlookup st.dims "H"
       | some mm => if b.prop = "height" then some mm else dlookup st.dims "H")) ∧
    (dlookup (wdStep st b).dims "W" =
      (match to_mm b.amount b.unit with
       | none => dlookup st.dims "W"
       | some mm => if b.prop = "width" then some mm else dlookup st.dims "W")) ∧
    (dlookup (wdStep st b).dims "T" =
      (match to_mm b.amount b.unit with
       | none => dlookup st.dims "T"
       | some mm => if b.prop = "thickness" then some mm else dlookup st.dims "T")) ∧
    (dlookup (wdStep st b).dims "DIAMETER" =
      (match to_mm b.amount b.unit with
       | none => dlookup st.dims "DIAMETER"
       | some mm => if b.prop = "diameter" then some mm else dlookup st.dims "DIAMETER")) ∧
    (dlookup (wdStep st b).dims "L" =
      (match to_mm b.amount b.unit with
       | none => dlookup st.dims "L"
       | some mm =>
         if b.prop = "length" ∨ b.prop = "depth" then
           (match dlookup st.dims "L" with
            | some w => some w
            | none => some mm)
         else dlookup st.dims "L")) := by
  cases hmm : to_mm b.amount b.unit with
  | none => simp [wdStep, hmm]
  | some mm =>
      by_cases h1 : b.prop = "height"
      · simp [wdStep, hmm, h1, dlookup_dictSet]
      · by_cases h2 : b.prop = "width"
        · simp [wdStep, hmm, h1, h2, dlookup_dictSet]
        · by_cases h3 : b.prop = "length" ∨ b.prop = "depth"
          · rcases h3 with h3 | h3 <;>
              simp [wdStep, hmm, h3, dlookup_dictSetdefault]
          · by_cases h4 : b.prop = "thickness"
            · simp [wdStep, hmm, h1, h2, h3, h4, dlookup_dictSet]
            · by_cases h5 : b.prop = "diameter"
              · simp [wdStep, hmm, h1, h2, h3, h4, h5, dlookup_dictSet]
              · simp [wdStep, hmm, h1, h2, h3, h4, h5]

lemma wdLoop_lookup (rows : List WRow) : ∀ st : WState,
    (dlookup (rows.foldl wdStep st).dims "H" =
      (match lastAxisMM "height" rows with
       | some v => some v
       | none => dlookup st.dims "H")) ∧
    (dlookup (rows.foldl wdStep st).dims "W" =
      (match lastAxisMM "width" rows with
       | some v => some v
       | none => dlookup st.dims "W")) ∧
    (dlookup (rows.foldl wdStep st).dims "T" =
      (match lastAxisMM "thickness" rows with
       | some v => some v
       | none => dlookup st.dims "T")) ∧
    (dlookup (rows.foldl wdStep st).dims "DIAMETER" =
      (match lastAxisMM "diameter" rows with
       | some v => some v
       | none => dlookup st.dims "DIAMETER")) ∧
    (dlookup (rows.foldl wdStep st).dims "L" =
      (match dlookup st.dims "L" with
       | some w => some w
       | none => firstLenMM rows)) := by
  induction rows with
  | nil =>
      intro st
      refine ⟨by simp [lastAxisMM], by simp [lastAxisMM], by simp [lastAxisMM],
              by simp [lastAxisMM], ?_⟩
      cases hl : dlookup st.dims "L" <;> simp [hl, firstLenMM]
  | cons b rest ih =>
      intro st
      simp only [List.foldl_cons]
      obtain ⟨ihH, ihW, ihT, ihD, ihL⟩ := ih (wdStep st b)
      obtain ⟨sH, sW, sT, sD, sL⟩ := wdStep_lookup st b
      refine ⟨?_, ?_, ?_, ?_, ?_⟩
      · rw [ihH, sH]
        cases hl : lastAxisMM "height" rest with
        | some v => simp [lastAxisMM, hl]
        | none =>
            cases hmm : to_mm b.amount b.unit with
            | none => by_cases hp : b.prop = "height" <;> simp [lastAxisMM, hl, hmm, hp]
            | some mm => by_cases hp : b.prop = "height" <;> simp [lastAxisMM, hl, hmm, hp]
      · rw [ihW, sW]
        cases hl : lastAxisMM "width" rest with
        | some v => simp [lastAxisMM, hl]
        | none =>
            cases hmm : to_mm b.amount b.unit with
            | none => by_cases hp : b.prop = "width" <;> simp [lastAxisMM, hl, hmm, hp]
            | some mm => by_cases hp : b.prop = "width" <;> simp [lastAxisMM, hl, hmm, hp]
      · rw [ihT, sT]
        cases hl : lastAxisMM "thickness" rest with
        | some v => simp [lastAxisMM, hl]
        | none =>
            cases hmm : to_mm b.amount b.unit with
            | none => by_cases hp : b.prop = "thickness" <;> simp [lastAxisMM, hl, hmm, hp]
            | some mm => by_cases hp : b.prop = "thickness" <;> simp [lastAxisMM, hl, hmm, hp]
      · rw [ihD, sD]
        cases hl : lastAxisMM "diameter" rest with
        | some v => simp [lastAxisMM, hl]
        | none =>
            cases hmm : to_mm b.amount b.unit with
            | none => by_cases hp : b.prop = "diameter" <;> simp [lastAxisMM, hl, hmm, hp]
            | some mm => by_cases hp : b.prop = "diameter" <;> simp [lastAxisMM, hl, hmm, hp]
      · rw [ihL, sL]
        cases hmm : to_mm b.amount b.unit with
        | none =>
            by_cases hp : b.prop = "length" ∨ b.prop = "depth" <;>
              cases hst : dlookup st.dims "L" <;> simp [firstLenMM, hp, hst, hmm]
        | some mm =>
            by_cases hp : b.prop = "length" ∨ b.prop = "depth" <;>
              cases hst : dlookup st.dims "L" <;> simp [firstLenMM, hp, hst, hmm]

/-- Reference counts summed over the rows that survive unit normalization
(the rows the loop does not `continue` past). -/
def refs_total_normalized (rows : List WRow) : Nat :=
  ((rows.filter (fun b => (to_mm b.amount b.unit).isSome)).map WRow.refs).sum

lemma wdLoop_refs (rows : List WRow) : ∀ st : WState,
    (rows.foldl wdStep st).refs_total = st.refs_total + refs_total_normalized rows := by
  induction rows with
  | nil => intro st; simp [refs_total_normalized]
  | cons b rest ih =>
      intro st
      simp only [List.foldl_cons]
      rw [ih (wdStep st b)]
      cases hmm : to_mm b.amount b.unit with
      | none =>
          simp [wdStep, hmm, refs_total_normalized, List.filter_cons]
      | some mm =>
          simp [wdStep, hmm, refs_total_normalized, List.filter_cons]
          omega

lemma wdLoop_skip (rows : List WRow) (h : ∀ b ∈ rows, to_mm b.amount b.unit = none) :
    ∀ st : WState, rows.foldl wdStep st = st := by
  induction rows with
  | nil => intro st; simp
  | cons b rest ih =>
      intro st
      have hb : to_mm b.amount b.unit = none := h b (List.mem_cons_self _ _)
      have hrest : ∀ x ∈ rest, to_mm x.amount x.unit = none :=
        fun x hx => h x (List.mem_cons_of_mem _ hx)
      simp only [List.foldl_cons]
      rw [show wdStep st b = st by simp [wdStep, hb]]
      exact ih hrest st

lemma to_mm_mm (a : ℚ) : to_mm a (some "mm") = some a := by
  have h1 : dlookup WIKIDATA_UNIT_TO_MM "mm" = none := by decide
  have h2 : dlookup UNITCODE_TO_MM "mm" = none := by decide
  have h3 : dlookup SYMBOL_TO_MM (pyLower (pyStrip "mm")) = some 1 := by decide
  simp [to_mm, h1, h2, h3]

/-- A single thickness row with a recognizable unit. -/
def c6rows : List WRow := [⟨"thickness", 5, some "mm", 0, none, none⟩]

/-- C6 counterexample: a thickness row lands on axis key "T", not
"THICKNESS" — the claimed key is absent from the result. -/
theorem wikidata_thickness_key_cex :
    (fetch_wikidata_core "Q1" c6rows).map (fun rp => dlookup rp.1.dims_mm "THICKNESS") =
      some none ∧
    (fetch_wikidata_core "Q1" c6rows).map (fun rp => dlookup rp.1.dims_mm "T") =
      some (some 5) := by
  have hmm1 : to_mm 5 (some "mm") = some 5 := to_mm_mm 5
  have hfold : c6rows.foldl wdStep ⟨[], 0, none, none⟩ = ⟨[("T", 5)], 0, none, none⟩ := by
    simp [c6rows, wdStep, hmm1, dictSet]
  have hempt : c6rows.isEmpty = false := rfl
  constructor <;> simp [fetch_wikidata_core, hfold, hempt, dlookup]

/-- C6 (amended): within a single response, rows map height→H, width→W,
thickness→T (the axis key the code and its docstring use for thickness,
instead of the claimed THICKNESS), diameter→DIAMETER, each last-writer-wins,
and length/depth→L with the FIRST normalizable occurrence winning; a row
whose unit fails normalization leaves the loop state untouched; and when
every row fails unit normalization the provider returns none. -/
theorem wikidata_axis_mapping (qid : String) (rows : List WRow) :
    (∀ r off, fetch_wikidata_core qid rows = some (r, off) →
      dlookup r.dims_mm "H" = lastAxisMM "height" rows ∧
      dlookup r.dims_mm "W" = lastAxisMM "width" rows ∧
      dlookup r.dims_mm "T" = lastAxisMM "thickness" rows ∧
      dlookup r.dims_mm "DIAMETER" = lastAxisMM "diameter" rows ∧
      dlookup r.dims_mm "L" = firstLenMM rows) ∧
    (∀ st b, to_mm b.amount b.unit = none → wdStep st b = st) ∧
    ((∀ b ∈ rows, to_mm b.amount b.unit = none) →
      fetch_wikidata_core qid rows = none) := by
  refine ⟨?_, ?_, ?_⟩
  · intro r off h
    simp only [fetch_wikidata_core] at h
    by_cases h1 : rows.isEmpty = true
    · rw [if_pos h1] at h
      exact absurd h (by simp)
    · rw [if_neg h1] at h
      by_cases h2 : (rows.foldl wdStep ⟨[], 0, none, none⟩).dims.isEmpty = true
      · rw [if_pos h2] at h
        exact absurd h (by simp)
      · rw [if_neg h2] at h
        have hr := Option.some.inj h
        have hdims : r.dims_mm = (rows.foldl wdStep ⟨[], 0, none, none⟩).dims :=
          (congrArg (fun p => DimensionsResult.dims_mm p.1) hr).symm
        obtain ⟨hH, hW, hT, hD, hL⟩ := wdLoop_lookup rows ⟨[], 0, none, none⟩
        rw [hdims, hH, hW, hT, hD, hL]
        refine ⟨?_, ?_, ?_, ?_, ?_⟩
        · cases hx : lastAxisMM "height" rows <;> simp [hx, dlookup]
        · cases hx : lastAxisMM "width" rows <;> simp [hx, dlookup]
        · cases hx : lastAxisMM "thickness" rows <;> simp [hx, dlookup]
        · cases hx : lastAxisMM "diameter" rows <;> simp [hx, dlookup]
        · simp [dlookup]
  · intro st b hb
    simp [wdStep, hb]
  · intro hall
    simp only [fetch_wikidata_core]
    rw [wdLoop_skip rows hall]
    simp [dlookup]

/-- C6 witness: the mapping theorem applied to the concrete one-row
response; the T axis of the result equals the characterized value. -/
theorem wikidata_axis_mapping_witness :
    (fetch_wikidata_core "Q1" c6rows).map (fun rp => dlookup rp.1.dims_mm "T") =
      some (lastAxisMM "thickness" c6rows) := by
  obtain ⟨rp, hrp⟩ : ∃ rp, fetch_wikidata_core "Q1" c6rows = some rp := ⟨_, rfl⟩
  rw [hrp]
  exact congrArg some
    ((wikidata_axis_mapping "Q1" c6rows).1 rp.1 rp.2 (by rw [hrp])).2.2.1

/-- Two height rows: the first normalizes with zero references; the second
carries three references but an unrecognizable unit, so the loop skips it
(including its reference count). -/
def c7rows : List WRow :=
  [⟨"height", 5, some "mm", 0, none, none⟩,
   ⟨"height", 7, some "parsec", 3, none, none⟩]

/-- The confidence formula exactly as the claim states it: base 0.8 plus
0.1 when the reference count summed across ALL returned rows is positive,
capped at 0.95. -/
def confidence_per_claim (rows : List WRow) : ℚ :=
  min ((8 : ℚ)/10 + if 0 < (rows.map WRow.refs).sum then 1/10 else 0) (95/100)

/-- C7 counterexample: on `c7rows` the aggregate reference count across all
returned rows is 3 > 0, so the claimed formula gives 0.9, but the code
accumulates references only for rows whose unit normalized and yields 0.8. -/
theorem wikidata_confidence_cex :
    (fetch_wikidata_core "Q1" c7rows).map (fun rp => rp.1.confidence) = some (8/10) ∧
    confidence_per_claim c7rows = 9/10 ∧
    ((8 : ℚ)/10) ≠ 9/10 := by
  have hmm1 : to_mm 5 (some "mm") = some 5 := to_mm_mm 5
  have hmm2 : to_mm 7 (some "parsec") = none := by decide
  have hfold : c7rows.foldl wdStep ⟨[], 0, none, none⟩ = ⟨[("H", 5)], 0, none, none⟩ := by
    simp [c7rows, wdStep, hmm1, hmm2, dictSet]
  have hempt : c7rows.isEmpty = false := rfl
  refine ⟨?_, ?_, by norm_num⟩
  · simp only [fetch_wikidata_core, hfold, hempt, Bool.false_eq_true, if_false]
    norm_num
  · simp [confidence_per_claim, c7rows]
    norm_num [min_def]

/-- C7 (corrected): the provider's confidence is `min(base, 0.95)` where
base is 0.8 plus 0.1 exactly when the reference count summed over the rows
that survived unit normalization (not all returned rows: `continue` on a
failed unit also skips the refs accumulation) is positive. -/
theorem wikidata_confidence_formula (qid : String) (rows : List WRow)
    (r : DimensionsResult) (off : Option String)
    (h : fetch_wikidata_core qid rows = some (r, off)) :
    r.confidence =
      min ((8 : ℚ)/10 + if 0 < refs_total_normalized rows then 1/10 else 0) (95/100) := by
  have hrefs : (rows.foldl wdStep ⟨[], 0, none, none⟩).refs_total =
      refs_total_normalized rows := by
    simpa using wdLoop_refs rows ⟨[], 0, none, none⟩
  simp only [fetch_wikidata_core] at h
  by_cases h1 : rows.isEmpty = true
  · rw [if_pos h1] at h
    exact absurd h (by simp)
  · rw [if_neg h1] at h
    by_cases h2 : (rows.foldl wdStep ⟨[], 0, none, none⟩).dims.isEmpty = true
    · rw [if_pos h2] at h
      exact absurd h (by simp)
    · rw [if_neg h2] at h
      have hr := Option.some.inj h
      have hconf : r.confidence =
          min (if 0 < (rows.foldl wdStep ⟨[], 0, none, none⟩).refs_total
               then (8 : ℚ)/10 + 1/10 else 8/10) (95/100) :=
        (congrArg (fun p => DimensionsResult.confidence p.1) hr).symm
      rw [hconf, hrefs]
      by_cases h0 : 0 < refs_total_normalized rows
      · simp [h0]
      · simp [h0]

/-- C7 witness: the corrected formula applied at the concrete rows. -/
theorem wikidata_confidence_formula_witness :
    (fetch_wikidata_core "Q1" c7rows).map (fun rp => rp.1.confidence) =
      some (min ((8 : ℚ)/10 + if 0 < refs_total_normalized c7rows then 1/10 else 0)
        (95/100)) := by
  obtain ⟨rp, hrp⟩ : ∃ rp, fetch_wikidata_core "Q1" c7rows = some rp := ⟨_, rfl⟩
  rw [hrp]
  exact congrArg some (wikidata_confidence_formula "Q1" c7rows rp.1 rp.2 (by rw [hrp]))

/-! ## Theorems: Embedded-Metadata Provider (C5, C8) -/

lemma tok45 : tokenToRat ['4', '5'] = 45 := by
  have h : digitsToNat ['4', '5'] = 45 := by decide
  have ht : List.takeWhile isDigitChar ['4', '5'] = ['4', '5'] := by decide
  have hd : List.dropWhile isDigitChar ['4', '5'] = ([] : List Char) := by decide
  simp [tokenToRat, ht, hd]
  norm_num [h]

lemma normalize_45mm : normalize_dims_from_text "45 mm" = some [("L", 45)] := by
  have hs3 : searchTriplet "45 mm".toList = none := by decide
  have hs1 : searchSingle "45 mm".toList = some (['4', '5'], ['m', 'm']) := by decide
  have hmk : String.mk ['m', 'm'] = "mm" := by decide
  have hp3 : parse_triplet "45 mm" = none := by
    unfold parse_triplet
    rw [hs3]
    rfl
  have hp1 : parse_single "45 mm" = some (45, "mm") := by
    unfold parse_single
    rw [hs1]
    simp [tok45, hmk]
  simp [normalize_dims_from_text, hp3, hp1, factor_mm]

/-- The failing input of the Diameter scenario: a Product whose only
dimension data is `additionalProperty = [{name: "Diameter", value: "45 mm"}]`. -/
def c5prod : Product :=
  { depth := none, width := none, height := none, size := SizeVal.absent,
    additionalProperty := [⟨some "Diameter", some "45 mm"⟩] }

/-- C5: evaluating the extraction at the failing input. The property name
"Diameter" is lowercased but never consulted, so the parsed single value
lands on the free-text parser's default axis L; the DimensionSet is
{L: 45}, not {DIAMETER: 45} as the spec scenario requires. -/
theorem schema_org_diameter_name_ignored :
    _extract_from_product c5prod = [("L", 45)] ∧
    dlookup (_extract_from_product c5prod) "DIAMETER" = none ∧
    dlookup (_extract_from_product c5prod) "L" = some 45 := by
  have he : _extract_from_product c5prod = [("L", 45)] := by
    simp [_extract_from_product, c5prod, normalize_45mm, dictUnion, dlookup, List.filter]
  refine ⟨he, ?_, ?_⟩ <;> rw [he] <;> decide

/-- C8 counterexample: `fetch_schema_org` contains no exception handler;
on a non-2xx response `raise_for_status()` raises, and on a transport
failure `client.get` raises — the provider's fetch does NOT return none. -/
theorem fetch_schema_org_raises_cex :
    fetch_schema_org "http://example.com/p" (HttpOutcome.ok 404 []) =
      Except.error (PyExc.httpStatusError 404) ∧
    fetch_schema_org "http://example.com/p" HttpOutcome.netError =
      Except.error PyExc.transportError ∧
    fetch_schema_org "http://example.com/p" (HttpOutcome.ok 404 []) ≠
      Except.ok none := by
  refine ⟨?_, rfl, ?_⟩
  · simp [fetch_schema_org]
  · simp [fetch_schema_org]

/-- C8 (amended): the exception escapes `fetch_schema_org` itself; the
orchestrator-level guard (modelled from the spec, as its fetcher.py section
is truncated in src/) catches it and degrades exactly that provider's
contribution to none. -/
theorem fetch_schema_org_failure_degrades (url : String) (status : Nat)
    (products : List Product) (h : status < 200 ∨ 300 ≤ status) :
    fetch_schema_org_guarded url HttpOutcome.netError = none ∧
    fetch_schema_org url (HttpOutcome.ok status products) =
      Except.error (PyExc.httpStatusError status) ∧
    fetch_schema_org_guarded url (HttpOutcome.ok status products) = none := by
  have h2 : fetch_schema_org url (HttpOutcome.ok status products) =
      Except.error (PyExc.httpStatusError status) := by
    simp only [fetch_schema_org]
    rw [if_pos h]
  refine ⟨rfl, h2, ?_⟩
  simp [fetch_schema_org_guarded, h2]

/-- C8 witness: the degradation theorem at a concrete URL and a 500
response. -/
theorem fetch_schema_org_failure_degrades_witness :
    fetch_schema_org_guarded "http://example.com/p" HttpOutcome.netError = none ∧
    fetch_schema_org "http://example.com/p" (HttpOutcome.ok 500 []) =
      Except.error (PyExc.httpStatusError 500) ∧
    fetch_schema_org_guarded "http://example.com/p" (HttpOutcome.ok 500 []) = none :=
  fetch_schema_org_failure_degrades "http://example.com/p" 500 [] (by norm_num)
